import Mathlib

/-!
Verification of the pulsar connection/consumer/websocket layer.

The definitions below are shallow embeddings of the Python source in
`pulsar/async/protocols.py` and `pulsar/apps/ws/websocket.py`.
Machine-level details (sockets, the event loop) are abstracted; the
control flow, counters, attribute stores and byte-level algorithms are
translated faithfully from the source.
-/

namespace Pulsar

/-! ### Byte-level helpers: SHA-1 and base64

Embedding of `hashlib.sha1` and `base64.b64encode` / `base64.b64decode`
as used by `WebSocket.challenge_response` and `WebSocket.handle_handshake`
(`pulsar/apps/ws/websocket.py`).  Bytes are natural numbers below 256,
32-bit words are naturals reduced modulo `2^32`.
-/

/-- ASCII bytes of a string (all strings involved are ASCII). -/
def asciiBytes (s : String) : List Nat :=
  s.data.map Char.toNat

/-- Reduce to a 32-bit word. -/
def w32 (x : Nat) : Nat := x % 4294967296

/-- 32-bit left rotation. -/
def rotl32 (n x : Nat) : Nat :=
  w32 (x <<< n) ||| (x >>> (32 - n))

/-- `k` bytes of `v`, big-endian. -/
def beBytes : Nat → Nat → List Nat
  | 0, _ => []
  | k + 1, v => beBytes k (v / 256) ++ [v % 256]

/-- Big-endian 32-bit words from a byte list (length a multiple of 4). -/
def beWords : List Nat → List Nat
  | a :: b :: c :: d :: rest => (((a * 256 + b) * 256 + c) * 256 + d) :: beWords rest
  | _ => []

/-- SHA-1 padding: append `0x80`, zeros, and the 64-bit big-endian bit length. -/
def sha1pad (ms : List Nat) : List Nat :=
  let z := (119 - ms.length % 64) % 64
  ms ++ [128] ++ List.replicate z 0 ++ beBytes 8 (8 * ms.length)

/-- Split a byte list into 64-byte blocks (fuelled recursion). -/
def blocks64Aux : Nat → List Nat → List (List Nat)
  | 0, _ => []
  | _ + 1, [] => []
  | n + 1, l => l.take 64 :: blocks64Aux n (l.drop 64)

def blocks64 (l : List Nat) : List (List Nat) :=
  blocks64Aux l.length l

/-- Extend the 16-word schedule by `n` further words. -/
def sha1Extend (ws : List Nat) : Nat → List Nat
  | 0 => ws
  | n + 1 =>
    let k := ws.length
    let w := rotl32 1 ((((ws.getD (k - 3) 0) ^^^ (ws.getD (k - 8) 0)) ^^^
                        (ws.getD (k - 14) 0)) ^^^ (ws.getD (k - 16) 0))
    sha1Extend (ws ++ [w]) n

/-- Round function of SHA-1. -/
def sha1f (i b c d : Nat) : Nat :=
  if i < 20 then (b &&& c) ||| ((b ^^^ 4294967295) &&& d)
  else if i < 40 then (b ^^^ c) ^^^ d
  else if i < 60 then ((b &&& c) ||| (b &&& d)) ||| (c &&& d)
  else (b ^^^ c) ^^^ d

/-- Round constants of SHA-1. -/
def sha1k (i : Nat) : Nat :=
  if i < 20 then 1518500249
  else if i < 40 then 1859775393
  else if i < 60 then 2400959708
  else 3395469782

/-- The 80 compression rounds over the indexed word schedule. -/
def sha1Rounds : List (Nat × Nat) → Nat × Nat × Nat × Nat × Nat → Nat × Nat × Nat × Nat × Nat
  | [], st => st
  | (i, w) :: rest, (a, b, c, d, e) =>
    let t := w32 (rotl32 5 a + sha1f i b c d + e + sha1k i + w)
    sha1Rounds rest (t, a, rotl32 30 b, c, d)

/-- Process one 64-byte block. -/
def sha1Block (h : Nat × Nat × Nat × Nat × Nat) (blk : List Nat) :
    Nat × Nat × Nat × Nat × Nat :=
  let ws := sha1Extend (beWords blk) 64
  let (h0, h1, h2, h3, h4) := h
  let (a, b, c, d, e) := sha1Rounds ((List.range 80).zip ws) h
  (w32 (h0 + a), w32 (h1 + b), w32 (h2 + c), w32 (h3 + d), w32 (h4 + e))

/-- SHA-1 of a byte list, as the 20-byte digest (`hashlib.sha1(...).digest()`). -/
def sha1 (ms : List Nat) : List Nat :=
  let (h0, h1, h2, h3, h4) :=
    (blocks64 (sha1pad ms)).foldl sha1Block
      (1732584193, 4023233417, 2562383102, 271733878, 3285377520)
  beBytes 4 h0 ++ beBytes 4 h1 ++ beBytes 4 h2 ++ beBytes 4 h3 ++ beBytes 4 h4

/-- The standard base64 alphabet, as ASCII codes. -/
def b64alphabet : List Nat :=
  asciiBytes "ABCDEFGHIJKLMNOPQRSTUVWXYZabcdefghijklmnopqrstuvwxyz0123456789+/"

/-- Index into the base64 alphabet. -/
def b64chr (n : Nat) : Nat := b64alphabet.getD n 0

/-- `base64.b64encode` on a byte list, producing the ASCII bytes of the encoding. -/
def b64encode : List Nat → List Nat
  | [] => []
  | [a] => [b64chr (a >>> 2), b64chr ((a &&& 3) <<< 4), 61, 61]
  | [a, b] => [b64chr (a >>> 2), b64chr (((a &&& 3) <<< 4) ||| (b >>> 4)),
               b64chr ((b &&& 15) <<< 2), 61]
  | a :: b :: c :: rest =>
    b64chr (a >>> 2) :: b64chr (((a &&& 3) <<< 4) ||| (b >>> 4)) ::
    b64chr (((b &&& 15) <<< 2) ||| (c >>> 6)) :: b64chr (c &&& 63) :: b64encode rest

/-- Value of one base64 alphabet character, if any. -/
def b64val (c : Nat) : Option Nat :=
  if c ∈ b64alphabet then some (b64alphabet.indexOf c) else none

/-- Decode filtered base64 text in groups of four characters; `61` is `=`.
Padding may occur only at the end. Mirrors `binascii.a2b_base64`. -/
def b64groups : List Nat → Option (List Nat)
  | [] => some []
  | a :: b :: c :: d :: rest =>
    match b64val a, b64val b with
    | some va, some vb =>
      if c = 61 then
        if d = 61 ∧ rest = [] then some [(va <<< 2) ||| (vb >>> 4)] else none
      else
        match b64val c with
        | some vc =>
          if d = 61 then
            if rest = [] then
              some [(va <<< 2) ||| (vb >>> 4), ((vb &&& 15) <<< 4) ||| (vc >>> 2)]
            else none
          else
            match b64val d with
            | some vd =>
              (b64groups rest).map
                (([(va <<< 2) ||| (vb >>> 4), ((vb &&& 15) <<< 4) ||| (vc >>> 2),
                   ((vc &&& 3) <<< 6) ||| vd]) ++ ·)
            | none => none
        | none => none
    | _, _ => none
  | _ => none

/-- `base64.b64decode(s)` with default validation: characters outside the
alphabet (other than `=`) are discarded before decoding; incorrect padding
raises, modelled as `none`. -/
def b64decodePy (cs : List Nat) : Option (List Nat) :=
  let t := cs.filter (fun c => (b64val c).isSome || c = 61)
  if t.length % 4 = 0 then b64groups t else none

/-! ### `WebSocket.challenge_response` (`pulsar/apps/ws/websocket.py:110-112`) -/

/-- `WEBSOCKET_GUID` from `pulsar/apps/ws/websocket.py`. -/
def WEBSOCKET_GUID : String := "258EAFA5-E914-47DA-95CA-C5AB0DC85B11"

/-- `WebSocket.challenge_response`: `base64.b64encode(sha1(to_bytes(key + GUID)).digest())`.
Keys are given by their ASCII bytes; the result is the ASCII bytes of the
accept value. -/
def challenge_response (key : List Nat) : List Nat :=
  b64encode (sha1 (key ++ asciiBytes WEBSOCKET_GUID))

/-! ### `WebSocket.handle_handshake` (`pulsar/apps/ws/websocket.py:61-108`) -/

/-- The WSGI environ entries read by `handle_handshake`.  `environ.get(k)`
returns `None` for a missing key, modelled as `Option`; `REQUEST_METHOD`
is always present in a WSGI environ. -/
structure Environ where
  requestMethod : String
  httpConnection : Option String
  httpUpgrade : Option String
  secWebSocketKey : Option String
  secWebSocketProtocol : Option String
  secWebSocketExtensions : Option String
  secWebSocketVersion : Option String

/-- `pulsar.HttpException(msg, status)`. -/
structure HttpException where
  status : Nat
  msg : String
deriving DecidableEq

/-- The frame parser as seen by the handshake: its negotiated protocols
and extensions. -/
structure WSParser where
  protocols : List String
  extensions : List String

/-- `WebSocket.parser_factory`: may raise `ProtocolError` (the `Except`
error carries `str(e)`). Called with the version, protocols, extensions. -/
def ParserFactory : Type :=
  Option String → List String → List String → Except String WSParser

/-- `base64.b64decode(key.encode('latin-1'))` with the source's
`except Exception: ws_key = ''` fallback. -/
def wsKeyBytes (key : String) : List Nat :=
  if key.data.all (fun c => c.toNat < 256) then
    (b64decodePy (key.data.map Char.toNat)).getD []
  else []

/-- Render a byte list as a `String` (for response header values). -/
def bytesToStr (bs : List Nat) : String :=
  String.mk (bs.map Char.ofNat)

/-- `WebSocket.handle_handshake(environ)`: validates the upgrade request and
returns the response headers together with the frame parser, or raises
`HttpException` (always with status 400 in this function). -/
def handle_handshake (pf : ParserFactory) (env : Environ) :
    Except HttpException (List (String × String) × WSParser) :=
  let connections := (((env.httpConnection.getD "").toLower).replace " " "").splitOn ","
  if ¬ ((env.httpUpgrade.getD "").toLower = "websocket") ∨ ¬ connections.contains "upgrade" then
    .error ⟨400, ""⟩
  else if ¬ (env.requestMethod.toUpper = "GET") then
    .error ⟨400, "Method is not GET"⟩
  else
    let key := env.secWebSocketKey.getD ""
    if key = "" then
      .error ⟨400, "Not a valid HyBi WebSocket request. Missing Sec-Websocket-Key header."⟩
    else if ¬ ((wsKeyBytes key).length = 16) then
      .error ⟨400, "WebSocket key\x27s length is invalid"⟩
    else
      let subprotocols := env.secWebSocketProtocol.getD ""
      let wsProtocols :=
        if ¬ (subprotocols = "") then (subprotocols.splitOn ",").map String.trim else []
      let exts := env.secWebSocketExtensions.getD ""
      let wsExtensions :=
        if ¬ (exts = "") then (exts.splitOn ",").map String.trim else []
      match pf env.secWebSocketVersion wsProtocols wsExtensions with
      | .error e => .error ⟨400, e⟩
      | .ok parser =>
        let headers := [("Sec-WebSocket-Accept", bytesToStr (challenge_response (asciiBytes key)))]
        let headers := if ¬ (parser.protocols = []) then
          headers ++ [("Sec-WebSocket-Protocol", ", ".intercalate parser.protocols)] else headers
        let headers := if ¬ (parser.extensions = []) then
          headers ++ [("Sec-WebSocket-Extensions", ",".intercalate parser.extensions)] else headers
        .ok (headers, parser)

set_option maxRecDepth 20000 in
/-- Claim C3: the `Sec-WebSocket-Accept` value is
`base64(SHA1(utf8(key) + GUID))`, and on the RFC 6455 sample key
`dGhlIHNhbXBsZSBub25jZQ==` it equals `s3pPLMBiTxaQ9kYGzzhZRbK+xOo=`. -/
theorem challenge_response_correct :
    (∀ key : List Nat,
      challenge_response key = b64encode (sha1 (key ++ asciiBytes WEBSOCKET_GUID)))
    ∧ challenge_response (asciiBytes "dGhlIHNhbXBsZSBub25jZQ==") =
        asciiBytes "s3pPLMBiTxaQ9kYGzzhZRbK+xOo=" :=
  ⟨fun _ => rfl, by decide⟩

/-- The HTTP status of a raised `HttpException`, `none` for success. -/
def resultStatus : Except HttpException α → Option Nat
  | .error e => some e.status
  | .ok _ => none

/-- Claim C4: the handshake validator answers HTTP 400 whenever the method
is not GET, the `Sec-WebSocket-Key` header is missing (or empty, which
Python's truthiness treats the same), or the key does not base64-decode to
exactly 16 bytes. -/
theorem handle_handshake_rejects (pf : ParserFactory) (env : Environ)
    (h : ¬ (env.requestMethod.toUpper = "GET") ∨ env.secWebSocketKey.getD "" = "" ∨
         ¬ ((wsKeyBytes (env.secWebSocketKey.getD "")).length = 16)) :
    resultStatus (handle_handshake pf env) = some 400 := by
  simp only [handle_handshake]
  split
  next => rfl
  next h1 =>
    split
    next => rfl
    next h2 =>
      split
      next => rfl
      next h3 =>
        split
        next => rfl
        next h4 =>
          split
          next => rfl
          next =>
            exfalso
            rcases h with h | h | h
            · exact h2 h
            · exact h3 h
            · exact h4 h

/-- Concrete invalid handshake: well-formed upgrade request whose key
`AAAAAAAAAAAAAAAAAAAA` decodes to 15 bytes. -/
def envShortKey : Environ :=
  { requestMethod := "GET", httpConnection := some "Upgrade",
    httpUpgrade := some "websocket", secWebSocketKey := some "AAAAAAAAAAAAAAAAAAAA",
    secWebSocketProtocol := none, secWebSocketExtensions := none,
    secWebSocketVersion := some "13" }

/-- A parser factory that accepts anything (used only to instantiate). -/
def pfTrivial : ParserFactory := fun _ _ _ => .ok ⟨[], []⟩

/-- Witness for C4: the 15-byte key is rejected with status 400. -/
theorem handle_handshake_rejects_witness :
    resultStatus (handle_handshake pfTrivial envShortKey) = some 400 :=
  handle_handshake_rejects pfTrivial envShortKey (Or.inr (Or.inr (by decide)))

/-! ### `Connection.data_received` byte routing (`pulsar/async/protocols.py:428-438`)

The consumer's `_data_received` is abstracted by its observable behaviour:
a function from the consumer's call count and the bytes passed in to the
leftover bytes it returns.  The routing loop records the chunk fed to each
`_data_received` call.  The loop in the source is

    toprocess = data
    while toprocess:
        toprocess = self.current_consumer()._data_received(data)

note the argument of `_data_received` is `data`, the original input.
-/

def ConsumerBeh : Type := Nat → List Nat → List Nat

/-- The routing loop exactly as in the source: each iteration passes the
original `data` to `_data_received`.  Fuelled because the source loop need
not terminate; `none` means the fuel ran out.  Returns the list of chunks
fed to successive `_data_received` calls. -/
def dataLoopCode (beh : ConsumerBeh) :
    Nat → Nat → List Nat → List Nat → Option (List (List Nat))
  | 0, _, _, _ => none
  | fuel + 1, k, toprocess, data =>
    if toprocess = [] then some []
    else
      let fed := data
      let leftover := beh k fed
      (dataLoopCode beh fuel (k + 1) leftover data).map (fed :: ·)

/-- `Connection.data_received(data)` restricted to its routing behaviour. -/
def connection_data_received (beh : ConsumerBeh) (fuel : Nat) (data : List Nat) :
    Option (List (List Nat)) :=
  dataLoopCode beh fuel 0 data data

/-- `Modelled from the spec:` the routing loop of §4.5,
`remaining = c._data_received(remaining)` — each iteration feeds the
remaining unconsumed bytes, not the original data. -/
def dataLoopSpec (beh : ConsumerBeh) :
    Nat → Nat → List Nat → Option (List (List Nat))
  | 0, _, _ => none
  | fuel + 1, k, remaining =>
    if remaining = [] then some []
    else
      let leftover := beh k remaining
      (dataLoopSpec beh fuel (k + 1) leftover).map (remaining :: ·)

/-- `Modelled from the spec:` `data_received` as §4.5 describes it. -/
def connection_data_received_spec (beh : ConsumerBeh) (fuel : Nat) (data : List Nat) :
    Option (List (List Nat)) :=
  dataLoopSpec beh fuel 0 data

/-- A consumer that consumes one byte on its first call and everything on
the second (returns the dropped remainder, then empty leftover). -/
def behDropOneThenAll : ConsumerBeh := fun k d => if k = 0 then d.drop 1 else []

/-- A consumer that always consumes exactly one byte, returning the rest. -/
def behDropOneAlways : ConsumerBeh := fun _ d => d.drop 1

set_option maxRecDepth 4000 in
/-- Claim C1 fails on the code: on input `[97, 98]` with a consumer whose
first call leaves leftover `[98]`, the code feeds the original `[97, 98]`
again (byte `97` is processed twice), where the spec's loop feeds the
leftover `[98]`; and with a consumer that always leaves a non-empty
leftover the code loop never terminates while the spec's loop does. -/
theorem data_received_refeeds_original_data :
    connection_data_received behDropOneThenAll 5 [97, 98] = some [[97, 98], [97, 98]]
    ∧ connection_data_received_spec behDropOneThenAll 5 [97, 98] = some [[97, 98], [98]]
    ∧ connection_data_received behDropOneAlways 100 [97, 98] = none
    ∧ connection_data_received_spec behDropOneAlways 100 [97, 98] = some [[97, 98], [98]] := by
  decide

/-! ### Connection / Consumer state model
(`pulsar/async/protocols.py`: `ProtocolConsumer.start`, `finished`,
`_data_received`, `_finished`; `Connection.__init__`, `current_consumer`,
`upgrade`, `_build_consumer`, `_connection_lost`;
`Producer.build_consumer`)

One-time-event semantics (`pulsar/async/events.py` is not part of the
sources) are modelled from spec §4.1: a one-time event fires at most once,
listeners run in bind order, and an `AbortEvent` raised by a `pre_request`
listener aborts the request path.  Consumer factories are identified by
numbers; a consumer remembers the factory that built it.  `pre_request`
listeners are abstracted by whether one of them raises `AbortEvent`.
-/

/-- The exception argument carried by `post_request`. -/
inductive Exc where
  | abortEvent
  | other
deriving DecidableEq

/-- The two `post_request` listeners bound by the source:
`ProtocolConsumer._finished` (bound in `start`) and
`Connection._build_consumer` (bound in `upgrade`). -/
inductive PostListener where
  | finishedL
  | buildConsumerL
deriving DecidableEq

/-- A `ProtocolConsumer`: identity, the factory that built it, whether
`start` has run (`hasattr(self, '_request')`), whether a bound
`pre_request` listener raises `AbortEvent`, the `post_request` one-time
event's fired flag and listener list, and `_data_received_count`. -/
structure Consumer where
  cid : Nat
  factoryId : Nat
  started : Bool
  preAborts : Bool
  postFired : Bool
  postListeners : List PostListener
  dataCount : Nat
deriving DecidableEq

/-- The observable state of one `Connection` together with the counters of
its `Producer`: the current consumer factory, the consumer slot,
`_processed`, the producer's `_requests_processed`, the number of consumers
built, the total number of `post_request` firings across this connection's
consumers, a fresh-id source, whether the transport is closed, the number
of log records, and whether the `assert` in `_build_consumer` failed. -/
structure ConnState where
  consumerFactory : Nat
  currentConsumer : Option Consumer
  processed : Nat
  requestsProcessed : Nat
  builtCount : Nat
  postFireCount : Nat
  nextCid : Nat
  closedFlag : Bool
  logCount : Nat
  assertFailed : Bool
deriving DecidableEq

/-- `Connection.__init__`: empty slot, `_processed = 0`. -/
def connInit (f : Nat) : ConnState :=
  { consumerFactory := f, currentConsumer := none, processed := 0,
    requestsProcessed := 0, builtCount := 0, postFireCount := 0,
    nextCid := 0, closedFlag := false, logCount := 0, assertFailed := false }

/-- `Connection._build_consumer(_, exc=None)`: on no error (or an
`AbortEvent`), asks the producer to build a consumer from the current
factory (`Producer.build_consumer`), asserts the slot is empty, and
attaches it. -/
def buildConsumerEv (exc : Option Exc) (s : ConnState) : ConnState :=
  if exc = none ∨ exc = some Exc.abortEvent then
    match s.currentConsumer with
    | none =>
      { s with
        currentConsumer := some
          { cid := s.nextCid, factoryId := s.consumerFactory, started := false,
            preAborts := false, postFired := false, postListeners := [], dataCount := 0 },
        builtCount := s.builtCount + 1, nextCid := s.nextCid + 1 }
    | some _ => { s with assertFailed := true }
  else s

/-- Effect of one `post_request` listener.  `_finished` clears the slot iff
the consumer is still the current one; `_build_consumer` is as above. -/
def runPostListener (c : Consumer) (exc : Option Exc) (s : ConnState) :
    PostListener → ConnState
  | .finishedL =>
    match s.currentConsumer with
    | some c2 => if c2.cid = c.cid then { s with currentConsumer := none } else s
    | none => s
  | .buildConsumerL => buildConsumerEv exc s

/-- Set the `post_request` fired flag on the consumer if it still occupies
the slot. -/
def markPostFired (cid : Nat) (s : ConnState) : ConnState :=
  match s.currentConsumer with
  | some c2 =>
    if c2.cid = cid then { s with currentConsumer := some { c2 with postFired := true } } else s
  | none => s

/-- `self.event('post_request').fire(exc=exc)` on consumer `c`: a one-time
event fires at most once; on the first firing the listeners run in bind
order. -/
def firePost (c : Consumer) (exc : Option Exc) (s : ConnState) : ConnState :=
  if c.postFired then s
  else
    let s1 := { markPostFired c.cid s with postFireCount := s.postFireCount + 1 }
    c.postListeners.foldl (fun st l => runPostListener c exc st l) s1

/-- `ProtocolConsumer.start(request)` on the current consumer: increments
the connection's `_processed` and the producer's `_requests_processed`,
binds `_finished` to `post_request`, stores the request, fires
`pre_request`; an `AbortEvent` from a listener is logged and swallowed,
otherwise `start_request` is invoked iff a request was given.  The second
component reports whether `start_request` was invoked. -/
def consumerStart (req : Option Unit) (s : ConnState) : ConnState × Bool :=
  match s.currentConsumer with
  | none => (s, false)
  | some c =>
    let c1 := { c with started := true, postListeners := c.postListeners ++ [.finishedL] }
    let s1 := { s with currentConsumer := some c1, processed := s.processed + 1,
                       requestsProcessed := s.requestsProcessed + 1 }
    if c.preAborts then ({ s1 with logCount := s1.logCount + 1 }, false)
    else (s1, req.isSome)

/-- `ProtocolConsumer._data_received`: starts the consumer on first data
(server path, no request object) and increments `_data_received_count`. -/
def consumerDataReceived (s : ConnState) : ConnState :=
  let s1 :=
    match s.currentConsumer with
    | some c => if c.started then s else (consumerStart none s).1
    | none => s
  match s1.currentConsumer with
  | some c => { s1 with currentConsumer := some { c with dataCount := c.dataCount + 1 } }
  | none => s1

/-- `Connection.current_consumer()`: build a consumer if the slot is empty. -/
def ensureConsumer (s : ConnState) : ConnState :=
  match s.currentConsumer with
  | none => buildConsumerEv none s
  | some _ => s

/-- One data-arrival step of `Connection.data_received`:
`current_consumer()._data_received(...)`. -/
def feedOp (s : ConnState) : ConnState :=
  consumerDataReceived (ensureConsumer s)

/-- `ProtocolConsumer.finished(exc)` on the current consumer. -/
def finishOp (exc : Option Exc) (s : ConnState) : ConnState :=
  match s.currentConsumer with
  | some c => firePost c exc s
  | none => s

/-- `Connection._connection_lost`: if a consumer is attached, call
`finished(exc)` on it. -/
def connLostOp (exc : Option Exc) (s : ConnState) : ConnState :=
  finishOp exc s

/-- `Connection.upgrade(consumer_factory)`: replace the factory; if a
consumer is attached bind `_build_consumer` to its `post_request`,
otherwise build immediately. -/
def upgradeOp (f : Nat) (s : ConnState) : ConnState :=
  let s1 := { s with consumerFactory := f }
  match s1.currentConsumer with
  | some c =>
    let c1 := { c with postListeners := c.postListeners ++ [.buildConsumerL] }
    { s1 with currentConsumer := some c1 }
  | none => buildConsumerEv none s1

/-- Claim C2: `upgrade(f)` on an empty slot builds a consumer from `f` at
once; with an attached (started, unfinished) consumer it leaves that
consumer in place and the consumer built when its `post_request` fires
comes from `f`. -/
theorem upgrade_consumer_factory (f : Nat) (s : ConnState) :
    (s.currentConsumer = none →
      ∃ c, (upgradeOp f s).currentConsumer = some c ∧ c.factoryId = f)
    ∧ (∀ c, s.currentConsumer = some c → c.started = true → c.postFired = false →
        c.postListeners = [PostListener.finishedL] →
        (upgradeOp f s).currentConsumer.map Consumer.cid = some c.cid
        ∧ ∃ c2, (finishOp none (upgradeOp f s)).currentConsumer = some c2
            ∧ c2.factoryId = f) := by
  constructor
  · intro h
    refine ⟨⟨s.nextCid, f, false, false, false, [], 0⟩, ?_, rfl⟩
    simp [upgradeOp, buildConsumerEv, h]
  · intro c hc hst hpf hls
    obtain ⟨cid, fid, st, pa, pfd, pl, dc⟩ := c
    simp only at hst hpf hls
    subst hst hpf hls
    constructor
    · simp [upgradeOp, hc]
    · refine ⟨⟨s.nextCid, f, false, false, false, [], 0⟩, ?_, rfl⟩
      simp [upgradeOp, hc, finishOp, firePost, markPostFired, runPostListener,
            buildConsumerEv]

/-- A started consumer occupying the slot, used to instantiate C2/C7. -/
def cActive : Consumer :=
  { cid := 0, factoryId := 3, started := true, preAborts := false,
    postFired := false, postListeners := [PostListener.finishedL], dataCount := 1 }

/-- A connection with `cActive` attached. -/
def sActive : ConnState :=
  { consumerFactory := 3, currentConsumer := some cActive, processed := 1,
    requestsProcessed := 1, builtCount := 1, postFireCount := 0, nextCid := 1,
    closedFlag := false, logCount := 0, assertFailed := false }

/-- Witness for C2, at an empty slot and at `sActive`. -/
theorem upgrade_consumer_factory_witness :
    (∃ c, (upgradeOp 7 (connInit 3)).currentConsumer = some c ∧ c.factoryId = 7)
    ∧ ((upgradeOp 7 sActive).currentConsumer.map Consumer.cid = some cActive.cid
       ∧ ∃ c2, (finishOp none (upgradeOp 7 sActive)).currentConsumer = some c2
           ∧ c2.factoryId = 7) :=
  ⟨(upgrade_consumer_factory 7 (connInit 3)).1 rfl,
   (upgrade_consumer_factory 7 sActive).2 cActive rfl rfl rfl rfl⟩

/-- Claim C7: when a `pre_request` listener raises `AbortEvent`,
`start` does not invoke `start_request`, fires no `post_request`, only
logs, and leaves the connection open. -/
theorem start_abort_event (s : ConnState) (c : Consumer) (req : Option Unit)
    (hc : s.currentConsumer = some c) (habort : c.preAborts = true) :
    (consumerStart req s).2 = false
    ∧ (consumerStart req s).1.postFireCount = s.postFireCount
    ∧ (consumerStart req s).1.closedFlag = s.closedFlag
    ∧ (consumerStart req s).1.logCount = s.logCount + 1 := by
  simp [consumerStart, hc, habort]

/-- A consumer whose `pre_request` listener raises `AbortEvent`. -/
def cAborting : Consumer :=
  { cid := 0, factoryId := 3, started := false, preAborts := true,
    postFired := false, postListeners := [], dataCount := 0 }

/-- A connection with `cAborting` attached. -/
def sAborting : ConnState :=
  { consumerFactory := 3, currentConsumer := some cAborting, processed := 0,
    requestsProcessed := 0, builtCount := 1, postFireCount := 0, nextCid := 1,
    closedFlag := false, logCount := 0, assertFailed := false }

/-- Witness for C7 at `sAborting` with a client request. -/
theorem start_abort_event_witness :
    (consumerStart (some ()) sAborting).2 = false
    ∧ (consumerStart (some ()) sAborting).1.postFireCount = sAborting.postFireCount
    ∧ (consumerStart (some ()) sAborting).1.closedFlag = sAborting.closedFlag
    ∧ (consumerStart (some ()) sAborting).1.logCount = sAborting.logCount + 1 :=
  start_abort_event sAborting cAborting (some ()) rfl rfl

/-! ### Trace accounting for the `processed` counter (claim C8)

Traces range over every externally driven operation on one connection:
data arrival, a consumer finishing its response, loss of the connection,
and `upgrade` of the consumer factory.  `upgrade` matters: a consumer
built by `upgrade` that receives no data fires `post_request` (through
`_connection_lost` → `finished`) without ever starting, and a pending
`upgrade` listener even builds a fresh consumer while `post_request`
fires during disconnect.  The exact accounting below therefore tracks two
trace quantities: firings by never-started consumers and starts of
already-finished consumers; both are zero on the plain keep-alive cycle.
-/

/-- The externally driven operations on one connection. -/
inductive ConnOp where
  | feed
  | finish (exc : Option Exc)
  | connLost (exc : Option Exc)
  | upgrade (f : Nat)

def connStep (s : ConnState) : ConnOp → ConnState
  | .feed => feedOp s
  | .finish e => finishOp e s
  | .connLost e => connLostOp e s
  | .upgrade f => upgradeOp f s

def connRun (s : ConnState) (ops : List ConnOp) : ConnState :=
  ops.foldl connStep s

/-- 1 while a not-yet-finished consumer is attached. -/
def indUnfinished (s : ConnState) : Nat :=
  match s.currentConsumer with
  | some c => if c.postFired then 0 else 1
  | none => 0

/-- 1 while a started, not-yet-finished consumer is attached
(a request is in progress). -/
def midRequest (s : ConnState) : Nat :=
  match s.currentConsumer with
  | some c => if c.started = true ∧ c.postFired = false then 1 else 0
  | none => 0

/-- 1 when firing `post_request` now would hit a consumer that never
started (an upgrade-built consumer that got no data). -/
def fireOnUnstarted (s : ConnState) : Nat :=
  match s.currentConsumer with
  | some c => if c.started = false ∧ c.postFired = false then 1 else 0
  | none => 0

/-- The firings by never-started consumers this operation contributes. -/
def fuCount (s : ConnState) : ConnOp → Nat
  | .finish _ => fireOnUnstarted s
  | .connLost _ => fireOnUnstarted s
  | _ => 0

/-- The starts of already-finished consumers this operation contributes
(data arriving for a consumer finished at disconnect; zero in normal
operation). -/
def saCount (s : ConnState) : ConnOp → Nat
  | .feed =>
    match s.currentConsumer with
    | some c => if c.started = false ∧ c.postFired = true then 1 else 0
    | none => 0
  | _ => 0

/-- Total `post_request` firings by never-started consumers along a trace. -/
def ghostFU : ConnState → List ConnOp → Nat
  | _, [] => 0
  | s, op :: rest => fuCount s op + ghostFU (connStep s op) rest

/-- Total starts of already-finished consumers along a trace. -/
def ghostSA : ConnState → List ConnOp → Nat
  | _, [] => 0
  | s, op :: rest => saCount s op + ghostSA (connStep s op) rest

/-- Shape of an attached consumer's `post_request` listener list: `start`
binds `_finished` exactly once, and every `upgrade` appends
`_build_consumer`. -/
def ConsumerShape (c : Consumer) : Prop :=
  (c.started = true → ∃ j k, c.postListeners =
    List.replicate j PostListener.buildConsumerL ++
      PostListener.finishedL :: List.replicate k PostListener.buildConsumerL)
  ∧ (c.started = false → ∃ j, c.postListeners =
      List.replicate j PostListener.buildConsumerL)

def ConnWF (s : ConnState) : Prop :=
  ∀ c, s.currentConsumer = some c → ConsumerShape c

/-- The state part of the accounting: the built count exceeds the firing
count by exactly the number of attached unfinished consumers (0 or 1). -/
def ConnInv (s : ConnState) : Prop :=
  s.builtCount = s.postFireCount + indUnfinished s ∧ ConnWF s

/-- `post_request` listeners never touch the `_processed` and firing
counters. -/
theorem foldPost_counters (c : Consumer) (exc : Option Exc) (ls : List PostListener)
    (st : ConnState) :
    (ls.foldl (fun t l => runPostListener c exc t l) st).processed = st.processed
    ∧ (ls.foldl (fun t l => runPostListener c exc t l) st).postFireCount =
        st.postFireCount := by
  induction ls generalizing st with
  | nil => exact ⟨rfl, rfl⟩
  | cons l rest ih =>
    have hstep : (runPostListener c exc st l).processed = st.processed
        ∧ (runPostListener c exc st l).postFireCount = st.postFireCount := by
      cases l with
      | finishedL =>
        cases h : st.currentConsumer with
        | none => simp [runPostListener, h]
        | some d =>
          simp only [runPostListener, h]
          split <;> exact ⟨rfl, rfl⟩
      | buildConsumerL =>
        simp only [runPostListener, buildConsumerEv]
        split
        · cases h : st.currentConsumer <;> simp [h]
        · exact ⟨rfl, rfl⟩
    rw [List.foldl_cons]
    obtain ⟨h1, h2⟩ := hstep
    obtain ⟨h3, h4⟩ := ih (runPostListener c exc st l)
    exact ⟨by rw [h3, h1], by rw [h4, h2]⟩

/-- A run of `_build_consumer` listeners with the slot occupied builds
nothing (the assert fails) and leaves the slot as it is. -/
theorem foldBL_occupied (c : Consumer) (exc : Option Exc) (j : Nat) (st : ConnState)
    (d : Consumer) (h : st.currentConsumer = some d) :
    ((List.replicate j PostListener.buildConsumerL).foldl
        (fun t l => runPostListener c exc t l) st).currentConsumer = some d
    ∧ ((List.replicate j PostListener.buildConsumerL).foldl
        (fun t l => runPostListener c exc t l) st).builtCount = st.builtCount := by
  induction j generalizing st with
  | zero => exact ⟨h, rfl⟩
  | succ n ih =>
    rw [List.replicate_succ, List.foldl_cons]
    have hstep : (runPostListener c exc st PostListener.buildConsumerL).currentConsumer =
          some d
        ∧ (runPostListener c exc st PostListener.buildConsumerL).builtCount =
            st.builtCount := by
      simp only [runPostListener, buildConsumerEv]
      split
      · simp [h]
      · exact ⟨h, rfl⟩
    obtain ⟨h1, h2⟩ := hstep
    obtain ⟨h3, h4⟩ := ih _ h1
    exact ⟨h3, by rw [h4, h2]⟩

/-- With a real error (`not exc or isinstance(exc, AbortEvent)` false) a
run of `_build_consumer` listeners is a no-op. -/
theorem foldBL_guardFalse (c : Consumer) (exc : Option Exc)
    (hg : ¬(exc = none ∨ exc = some Exc.abortEvent)) (j : Nat) (st : ConnState) :
    (List.replicate j PostListener.buildConsumerL).foldl
        (fun t l => runPostListener c exc t l) st = st := by
  induction j generalizing st with
  | zero => rfl
  | succ n ih =>
    rw [List.replicate_succ, List.foldl_cons]
    have hstep : runPostListener c exc st PostListener.buildConsumerL = st := by
      simp [runPostListener, buildConsumerEv, hg]
    rw [hstep]
    exact ih st

/-- A run of `_build_consumer` listeners from an empty slot either builds
nothing or builds exactly one fresh consumer from the current factory. -/
theorem foldBL_empty (c : Consumer) (exc : Option Exc) (k : Nat) (st : ConnState)
    (h : st.currentConsumer = none) :
    (((List.replicate k PostListener.buildConsumerL).foldl
          (fun t l => runPostListener c exc t l) st).builtCount = st.builtCount
      ∧ ((List.replicate k PostListener.buildConsumerL).foldl
          (fun t l => runPostListener c exc t l) st).currentConsumer = none)
    ∨ (((List.replicate k PostListener.buildConsumerL).foldl
          (fun t l => runPostListener c exc t l) st).builtCount = st.builtCount + 1
      ∧ ∃ d, ((List.replicate k PostListener.buildConsumerL).foldl
            (fun t l => runPostListener c exc t l) st).currentConsumer = some d
          ∧ d.started = false ∧ d.postFired = false ∧ d.postListeners = []) := by
  by_cases hg : exc = none ∨ exc = some Exc.abortEvent
  · cases k with
    | zero => exact Or.inl ⟨rfl, h⟩
    | succ n =>
      rw [List.replicate_succ, List.foldl_cons]
      have hstep : runPostListener c exc st PostListener.buildConsumerL =
          { st with
            currentConsumer := some
              { cid := st.nextCid, factoryId := st.consumerFactory, started := false,
                preAborts := false, postFired := false, postListeners := [],
                dataCount := 0 },
            builtCount := st.builtCount + 1, nextCid := st.nextCid + 1 } := by
        simp [runPostListener, buildConsumerEv, h, hg]
      rw [hstep]
      obtain ⟨h1, h2⟩ := foldBL_occupied c exc n
        { st with
          currentConsumer := some
            { cid := st.nextCid, factoryId := st.consumerFactory, started := false,
              preAborts := false, postFired := false, postListeners := [],
              dataCount := 0 },
          builtCount := st.builtCount + 1, nextCid := st.nextCid + 1 }
        { cid := st.nextCid, factoryId := st.consumerFactory, started := false,
          preAborts := false, postFired := false, postListeners := [], dataCount := 0 }
        rfl
      exact Or.inr ⟨by rw [h2], ⟨_, h1, rfl, rfl, rfl⟩⟩
  · rw [foldBL_guardFalse c exc hg k st]
    exact Or.inl ⟨rfl, h⟩

/-- Firing `post_request` on an already-fired consumer is a no-op. -/
theorem firePost_fired (c : Consumer) (exc : Option Exc) (s : ConnState)
    (hpf : c.postFired = true) : firePost c exc s = s := by
  simp [firePost, hpf]

/-- Firing `post_request` on an attached never-started consumer: the firing
count grows, the consumer stays attached (no `_finished` bound), nothing is
built. -/
theorem firePost_unstarted (c : Consumer) (exc : Option Exc) (s : ConnState) (j : Nat)
    (hc : s.currentConsumer = some c) (hpf : c.postFired = false)
    (hls : c.postListeners = List.replicate j PostListener.buildConsumerL) :
    (firePost c exc s).processed = s.processed
    ∧ (firePost c exc s).postFireCount = s.postFireCount + 1
    ∧ (firePost c exc s).builtCount = s.builtCount
    ∧ (firePost c exc s).currentConsumer = some { c with postFired := true } := by
  have hfire : firePost c exc s =
      (List.replicate j PostListener.buildConsumerL).foldl
        (fun t l => runPostListener c exc t l)
        { s with currentConsumer := some { c with postFired := true },
                 postFireCount := s.postFireCount + 1 } := by
    simp [firePost, hpf, hls, markPostFired, hc]
  obtain ⟨hp, hf⟩ := foldPost_counters c exc (List.replicate j PostListener.buildConsumerL)
    { s with currentConsumer := some { c with postFired := true },
             postFireCount := s.postFireCount + 1 }
  obtain ⟨hcur, hbuilt⟩ := foldBL_occupied c exc j
    { s with currentConsumer := some { c with postFired := true },
             postFireCount := s.postFireCount + 1 }
    { c with postFired := true } rfl
  rw [hfire]
  exact ⟨hp, hf, hbuilt, hcur⟩

/-- Firing `post_request` on an attached started consumer: the firing count
grows, `_finished` detaches it, and a pending `_build_consumer` listener (if
any, from `upgrade`) builds one fresh consumer. -/
theorem firePost_started (c : Consumer) (exc : Option Exc) (s : ConnState) (j k : Nat)
    (hc : s.currentConsumer = some c) (hpf : c.postFired = false)
    (hls : c.postListeners = List.replicate j PostListener.buildConsumerL ++
        PostListener.finishedL :: List.replicate k PostListener.buildConsumerL) :
    (firePost c exc s).processed = s.processed
    ∧ (firePost c exc s).postFireCount = s.postFireCount + 1
    ∧ (((firePost c exc s).builtCount = s.builtCount
          ∧ (firePost c exc s).currentConsumer = none)
       ∨ ((firePost c exc s).builtCount = s.builtCount + 1
          ∧ ∃ d, (firePost c exc s).currentConsumer = some d
              ∧ d.started = false ∧ d.postFired = false ∧ d.postListeners = [])) := by
  have hfire : firePost c exc s =
      (List.replicate j PostListener.buildConsumerL ++
        PostListener.finishedL :: List.replicate k PostListener.buildConsumerL).foldl
        (fun t l => runPostListener c exc t l)
        { s with currentConsumer := some { c with postFired := true },
                 postFireCount := s.postFireCount + 1 } := by
    simp [firePost, hpf, hls, markPostFired, hc]
  obtain ⟨hcur1, hbuilt1⟩ := foldBL_occupied c exc j
    { s with currentConsumer := some { c with postFired := true },
             postFireCount := s.postFireCount + 1 }
    { c with postFired := true } rfl
  have hfL : ∀ t : ConnState, t.currentConsumer = some { c with postFired := true } →
      runPostListener c exc t PostListener.finishedL =
        { t with currentConsumer := none } := by
    intro t ht
    simp [runPostListener, ht]
  have key : firePost c exc s =
      (List.replicate k PostListener.buildConsumerL).foldl
        (fun t l => runPostListener c exc t l)
        { ((List.replicate j PostListener.buildConsumerL).foldl
            (fun t l => runPostListener c exc t l)
            { s with currentConsumer := some { c with postFired := true },
                     postFireCount := s.postFireCount + 1 }) with
          currentConsumer := none } := by
    rw [hfire, List.foldl_append, List.foldl_cons, hfL _ hcur1]
  obtain ⟨hp1, hf1⟩ := foldPost_counters c exc (List.replicate j PostListener.buildConsumerL)
    { s with currentConsumer := some { c with postFired := true },
             postFireCount := s.postFireCount + 1 }
  obtain ⟨hp2, hf2⟩ := foldPost_counters c exc (List.replicate k PostListener.buildConsumerL)
    { ((List.replicate j PostListener.buildConsumerL).foldl
        (fun t l => runPostListener c exc t l)
        { s with currentConsumer := some { c with postFired := true },
                 postFireCount := s.postFireCount + 1 }) with
      currentConsumer := none }
  have hcase := foldBL_empty c exc k
    { ((List.replicate j PostListener.buildConsumerL).foldl
        (fun t l => runPostListener c exc t l)
        { s with currentConsumer := some { c with postFired := true },
                 postFireCount := s.postFireCount + 1 }) with
      currentConsumer := none } rfl
  rw [key]
  refine ⟨by rw [hp2]; exact hp1, by rw [hf2]; exact hf1, ?_⟩
  rcases hcase with ⟨hb, hn⟩ | ⟨hb, d, hd, h1, h2, h3⟩
  · exact Or.inl ⟨by rw [hb]; exact hbuilt1, hn⟩
  · exact Or.inr ⟨by rw [hb, hbuilt1], ⟨d, hd, h1, h2, h3⟩⟩

/-- One `feed` step preserves the accounting. -/
theorem feedOp_accounting (s : ConnState) (h : ConnInv s) :
    ConnInv (feedOp s)
    ∧ (feedOp s).processed + midRequest s + s.postFireCount
        = s.processed + saCount s ConnOp.feed + midRequest (feedOp s)
          + (feedOp s).postFireCount := by
  obtain ⟨hcount, hwf⟩ := h
  cases hcur : s.currentConsumer with
  | none =>
    simp only [indUnfinished, hcur] at hcount
    have hfeed : feedOp s =
        { s with
          currentConsumer := some
            { cid := s.nextCid, factoryId := s.consumerFactory, started := true,
              preAborts := false, postFired := false,
              postListeners := [PostListener.finishedL], dataCount := 1 },
          builtCount := s.builtCount + 1, nextCid := s.nextCid + 1,
          processed := s.processed + 1,
          requestsProcessed := s.requestsProcessed + 1 } := by
      simp [feedOp, ensureConsumer, buildConsumerEv, consumerDataReceived,
            consumerStart, hcur]
    rw [hfeed]
    refine ⟨⟨?_, ?_⟩, ?_⟩
    · simp [indUnfinished, hcount]
    · intro d hd
      simp only [Option.some.injEq] at hd
      subst hd
      exact ⟨fun _ => ⟨0, 0, rfl⟩, fun hx => nomatch hx⟩
    · simp [midRequest, saCount, hcur]
  | some c =>
    cases hst : c.started with
    | true =>
      have hfeed : feedOp s =
          { s with currentConsumer := some { c with dataCount := c.dataCount + 1 } } := by
        simp [feedOp, ensureConsumer, consumerDataReceived, hcur, hst]
      obtain ⟨hsh1, hsh2⟩ := hwf c hcur
      rw [hfeed]
      refine ⟨⟨?_, ?_⟩, ?_⟩
      · simpa [indUnfinished, hcur] using hcount
      · intro d hd
        simp only [Option.some.injEq] at hd
        subst hd
        exact ⟨fun _ => hsh1 hst, fun hx => by rw [hst] at hx; exact nomatch hx⟩
      · simp [midRequest, saCount, hcur, hst]
    | false =>
      obtain ⟨hsh1, hsh2⟩ := hwf c hcur
      obtain ⟨j, hj⟩ := hsh2 hst
      have hfeed : feedOp s = (if c.preAborts = true then
          { s with
            currentConsumer := some
              { c with started := true, dataCount := c.dataCount + 1,
                       postListeners := c.postListeners ++ [PostListener.finishedL] },
            processed := s.processed + 1,
            requestsProcessed := s.requestsProcessed + 1,
            logCount := s.logCount + 1 }
        else
          { s with
            currentConsumer := some
              { c with started := true, dataCount := c.dataCount + 1,
                       postListeners := c.postListeners ++ [PostListener.finishedL] },
            processed := s.processed + 1,
            requestsProcessed := s.requestsProcessed + 1 }) := by
        cases hpa : c.preAborts <;>
          simp [feedOp, ensureConsumer, consumerDataReceived, consumerStart, hcur,
                hst, hpa]
      have hshape : ConsumerShape
          { c with started := true, dataCount := c.dataCount + 1,
                   postListeners := c.postListeners ++ [PostListener.finishedL] } := by
        refine ⟨fun _ => ⟨j, 0, ?_⟩, fun hx => (nomatch hx)⟩
        simp [hj]
      rw [hfeed]
      cases hpa : c.preAborts <;>
        simp only [if_true, if_false, Bool.false_eq_true, reduceIte] <;>
        refine ⟨⟨?_, ?_⟩, ?_⟩
      · simpa [indUnfinished, hcur] using hcount
      · intro d hd
        simp only [Option.some.injEq] at hd
        subst hd
        exact hshape
      · cases hpfd : c.postFired <;> simp [midRequest, saCount, hcur, hst, hpfd]
      · simpa [indUnfinished, hcur] using hcount
      · intro d hd
        simp only [Option.some.injEq] at hd
        subst hd
        exact hshape
      · cases hpfd : c.postFired <;> simp [midRequest, saCount, hcur, hst, hpfd]

/-- One `finished` (or `_connection_lost`) step preserves the accounting. -/
theorem finishOp_accounting (e : Option Exc) (s : ConnState) (h : ConnInv s) :
    ConnInv (finishOp e s)
    ∧ (finishOp e s).processed + fireOnUnstarted s + midRequest s + s.postFireCount
        = s.processed + midRequest (finishOp e s) + (finishOp e s).postFireCount := by
  obtain ⟨hcount, hwf⟩ := h
  cases hcur : s.currentConsumer with
  | none =>
    have hfin : finishOp e s = s := by simp [finishOp, hcur]
    rw [hfin]
    exact ⟨⟨hcount, hwf⟩, by simp [fireOnUnstarted, hcur]⟩
  | some c =>
    have hfin : finishOp e s = firePost c e s := by simp [finishOp, hcur]
    cases hpfd : c.postFired with
    | true =>
      rw [hfin, firePost_fired c e s hpfd]
      exact ⟨⟨hcount, hwf⟩, by simp [fireOnUnstarted, hcur, hpfd]⟩
    | false =>
      simp only [indUnfinished, hcur, hpfd, if_false] at hcount
      obtain ⟨hsh1, hsh2⟩ := hwf c hcur
      cases hst : c.started with
      | false =>
        obtain ⟨j, hj⟩ := hsh2 hst
        obtain ⟨hp, hf, hb, hc2⟩ := firePost_unstarted c e s j hcur hpfd hj
        rw [hfin]
        refine ⟨⟨?_, ?_⟩, ?_⟩
        · rw [hb, hf, hcount]
          simp [indUnfinished, hc2]
        · intro d hd
          rw [hc2] at hd
          simp only [Option.some.injEq] at hd
          subst hd
          exact ⟨fun hx => Bool.noConfusion (hst.symm.trans hx), fun _ => hsh2 hst⟩
        · rw [hp, hf]
          simp only [fireOnUnstarted, midRequest, hcur, hst, hpfd, hc2]
          simp
          omega
      | true =>
        obtain ⟨j, k, hjk⟩ := hsh1 hst
        obtain ⟨hp, hf, hcase⟩ := firePost_started c e s j k hcur hpfd hjk
        rw [hfin]
        rcases hcase with ⟨hb, hn⟩ | ⟨hb, d, hd, h1, h2, h3⟩
        · refine ⟨⟨?_, ?_⟩, ?_⟩
          · rw [hb, hf, hcount]
            simp [indUnfinished, hn]
          · intro d hd
            rw [hn] at hd
            exact (nomatch hd)
          · rw [hp, hf]
            simp only [fireOnUnstarted, midRequest, hcur, hst, hpfd, hn]
            simp
            omega
        · refine ⟨⟨?_, ?_⟩, ?_⟩
          · rw [hb, hf, hcount]
            simp [indUnfinished, hd, h2]
          · intro d2 hd2
            rw [hd] at hd2
            simp only [Option.some.injEq] at hd2
            subst hd2
            exact ⟨fun hx => Bool.noConfusion (h1.symm.trans hx), fun _ => ⟨0, h3⟩⟩
          · rw [hp, hf]
            simp only [fireOnUnstarted, midRequest, hcur, hst, hpfd, hd, h1]
            simp
            omega

/-- One `upgrade` step preserves the accounting and every counter. -/
theorem upgradeOp_accounting (f : Nat) (s : ConnState) (h : ConnInv s) :
    ConnInv (upgradeOp f s)
    ∧ midRequest (upgradeOp f s) = midRequest s
    ∧ (upgradeOp f s).processed = s.processed
    ∧ (upgradeOp f s).postFireCount = s.postFireCount := by
  obtain ⟨hcount, hwf⟩ := h
  cases hcur : s.currentConsumer with
  | none =>
    simp only [indUnfinished, hcur] at hcount
    have hup : upgradeOp f s =
        { s with consumerFactory := f,
                 currentConsumer := some
                   { cid := s.nextCid, factoryId := f, started := false,
                     preAborts := false, postFired := false, postListeners := [],
                     dataCount := 0 },
                 builtCount := s.builtCount + 1, nextCid := s.nextCid + 1 } := by
      simp [upgradeOp, buildConsumerEv, hcur]
    rw [hup]
    refine ⟨⟨?_, ?_⟩, ?_, rfl, rfl⟩
    · simp [indUnfinished, hcount]
    · intro d hd
      simp only [Option.some.injEq] at hd
      subst hd
      exact ⟨fun hx => (nomatch hx), fun _ => ⟨0, rfl⟩⟩
    · simp [midRequest, hcur]
  | some c =>
    obtain ⟨hsh1, hsh2⟩ := hwf c hcur
    have hup : upgradeOp f s =
        { s with consumerFactory := f,
                 currentConsumer := some
                   { c with postListeners :=
                      c.postListeners ++ [PostListener.buildConsumerL] } } := by
      simp [upgradeOp, hcur]
    rw [hup]
    refine ⟨⟨?_, ?_⟩, ?_, rfl, rfl⟩
    · simpa [indUnfinished, hcur] using hcount
    · intro d hd
      simp only [Option.some.injEq] at hd
      subst hd
      constructor
      · intro hx
        obtain ⟨j, k, hjk⟩ := hsh1 hx
        refine ⟨j, k + 1, ?_⟩
        rw [hjk]
        simp [List.replicate_succ', List.append_assoc]
      · intro hx
        obtain ⟨j, hj⟩ := hsh2 hx
        refine ⟨j + 1, ?_⟩
        rw [hj]
        simp [List.replicate_succ']
    · simp [midRequest, hcur]

/-- Each step preserves the state invariant and satisfies the ledger
equation relating `processed`, the firing count, the mid-request indicator
and the two ghost quantities. -/
theorem connStep_accounting (s : ConnState) (op : ConnOp) (h : ConnInv s) :
    ConnInv (connStep s op)
    ∧ (connStep s op).processed + fuCount s op + midRequest s + s.postFireCount
        = s.processed + saCount s op + midRequest (connStep s op)
          + (connStep s op).postFireCount := by
  cases op with
  | feed =>
    obtain ⟨h1, h2⟩ := feedOp_accounting s h
    exact ⟨h1, by simpa [connStep, fuCount] using h2⟩
  | finish e =>
    obtain ⟨h1, h2⟩ := finishOp_accounting e s h
    exact ⟨h1, by simpa [connStep, fuCount, saCount] using h2⟩
  | connLost e =>
    obtain ⟨h1, h2⟩ := finishOp_accounting e s h
    exact ⟨by simpa [connStep, connLostOp] using h1,
           by simpa [connStep, connLostOp, fuCount, saCount] using h2⟩
  | upgrade f =>
    obtain ⟨h1, h2, h3, h4⟩ := upgradeOp_accounting f s h
    refine ⟨h1, ?_⟩
    simp only [connStep, fuCount, saCount]
    omega

/-- The ledger equation accumulated along a run. -/
theorem connRun_accounting (s : ConnState) (ops : List ConnOp) (h : ConnInv s) :
    ConnInv (connRun s ops)
    ∧ (connRun s ops).processed + ghostFU s ops + midRequest s + s.postFireCount
        = s.processed + ghostSA s ops + midRequest (connRun s ops)
          + (connRun s ops).postFireCount := by
  induction ops generalizing s with
  | nil =>
    refine ⟨h, ?_⟩
    simp [connRun, ghostFU, ghostSA]
  | cons op rest ih =>
    obtain ⟨hinv1, heq1⟩ := connStep_accounting s op h
    obtain ⟨hinv2, heq2⟩ := ih (connStep s op) hinv1
    have e1 : connRun s (op :: rest) = connRun (connStep s op) rest := by
      simp [connRun]
    refine ⟨by rw [e1]; exact hinv2, ?_⟩
    rw [e1]
    simp only [ghostFU, ghostSA]
    omega

/-- After `connection_lost` no started-unfinished consumer remains. -/
theorem connLost_no_midRequest (s : ConnState) (h : ConnInv s) :
    midRequest (connLostOp none s) = 0 := by
  obtain ⟨hcount, hwf⟩ := h
  cases hcur : s.currentConsumer with
  | none => simp [connLostOp, finishOp, midRequest, hcur]
  | some c =>
    have hfin : connLostOp none s = firePost c none s := by
      simp [connLostOp, finishOp, hcur]
    cases hpfd : c.postFired with
    | true =>
      rw [hfin, firePost_fired c none s hpfd]
      simp [midRequest, hcur, hpfd]
    | false =>
      obtain ⟨hsh1, hsh2⟩ := hwf c hcur
      cases hst : c.started with
      | false =>
        obtain ⟨j, hj⟩ := hsh2 hst
        obtain ⟨_, _, _, hc2⟩ := firePost_unstarted c none s j hcur hpfd hj
        rw [hfin]
        simp [midRequest, hc2, hst]
      | true =>
        obtain ⟨j, k, hjk⟩ := hsh1 hst
        obtain ⟨_, _, hcase⟩ := firePost_started c none s j k hcur hpfd hjk
        rw [hfin]
        rcases hcase with ⟨_, hn⟩ | ⟨_, d, hd, h1, _, _⟩
        · simp [midRequest, hn]
        · simp [midRequest, hd, h1]

/-- Counterexample to claim C8 as stated: after a single data arrival the
consumer has started but not finished, so `processed = 1` while no
`post_request` has fired. -/
theorem processed_equals_fires_counterexample :
    ¬ ((connRun (connInit 0) [ConnOp.feed]).processed =
       (connRun (connInit 0) [ConnOp.feed]).postFireCount) := by
  decide

/-- Claim C8 as amended, over every trace of data arrivals, request
completions, factory upgrades and connection loss: (a) the number of built
consumers always equals the number of `post_request` firings plus one
exactly while a not-yet-finished consumer is attached; (b) `processed`
plus the firings by never-started consumers (upgrade-built consumers that
finished without receiving data) always equals the firing count plus one
exactly while a started unfinished consumer is attached, plus the starts
of already-finished consumers — both correction terms are zero on the
plain keep-alive cycle, where every consumer is built by data arrival;
(c) immediately after `connection_lost` no started-unfinished consumer
remains, so there `processed` plus the never-started firings equals the
firing count plus the post-finish starts. -/
theorem processed_counts_post_request (f : Nat) (ops : List ConnOp) :
    ((connRun (connInit f) ops).builtCount =
        (connRun (connInit f) ops).postFireCount
          + indUnfinished (connRun (connInit f) ops))
    ∧ ((connRun (connInit f) ops).processed + ghostFU (connInit f) ops =
        (connRun (connInit f) ops).postFireCount
          + midRequest (connRun (connInit f) ops) + ghostSA (connInit f) ops)
    ∧ ((connLostOp none (connRun (connInit f) ops)).processed
          + ghostFU (connInit f) (ops ++ [ConnOp.connLost none]) =
        (connLostOp none (connRun (connInit f) ops)).postFireCount
          + ghostSA (connInit f) (ops ++ [ConnOp.connLost none])) := by
  have hinit : ConnInv (connInit f) := by
    refine ⟨rfl, ?_⟩
    intro c hc
    simp [connInit] at hc
  obtain ⟨hinv, heq⟩ := connRun_accounting (connInit f) ops hinit
  obtain ⟨_, heq2⟩ := connRun_accounting (connInit f) (ops ++ [ConnOp.connLost none]) hinit
  have hmid0 : midRequest (connLostOp none (connRun (connInit f) ops)) = 0 :=
    connLost_no_midRequest _ hinv
  have happ : connRun (connInit f) (ops ++ [ConnOp.connLost none]) =
      connLostOp none (connRun (connInit f) ops) := by
    simp [connRun, connStep]
  rw [happ] at heq2
  have e1 : midRequest (connInit f) = 0 := rfl
  have e2 : (connInit f).processed = 0 := rfl
  have e3 : (connInit f).postFireCount = 0 := rfl
  rw [e1, e2, e3] at heq heq2
  refine ⟨hinv.1, by omega, by omega⟩

/-! ### `PulsarProtocol.close` (`pulsar/async/protocols.py:275-301`)

`_closed` starts as `None`; the first `close()` either schedules the
`_close` task (transport present) or fires `connection_lost` directly, and
sets `_closed` truthy, making later calls no-ops.  The one-time event
semantics (fire at most once) are modelled from spec §4.1, since
`pulsar/async/events.py` is not among the sources.  The eventual firing on
actual transport closure goes through `PulsarProtocol.connection_lost`.
-/

structure ProtoState where
  hasTransport : Bool
  closedFlag : Bool
  closeTasks : Nat
  lostFired : Bool
  lostFireCount : Nat
deriving DecidableEq

/-- `self.event('connection_lost').fire()`: a one-time event fires at most
once. -/
def fireConnectionLost (s : ProtoState) : ProtoState :=
  if s.lostFired then s
  else { s with lostFired := true, lostFireCount := s.lostFireCount + 1 }

/-- `PulsarProtocol.close()`. -/
def close (s : ProtoState) : ProtoState :=
  if s.closedFlag then s
  else if s.hasTransport then
    { s with closeTasks := s.closeTasks + 1, closedFlag := true }
  else
    { fireConnectionLost s with closedFlag := true }

/-- `PulsarProtocol.connection_lost`: the event-loop callback when the
transport actually closes; it fires the `connection_lost` event. -/
def connection_lost (s : ProtoState) : ProtoState :=
  fireConnectionLost s

/-- `n` successive calls of `close()`. -/
def closeN : Nat → ProtoState → ProtoState
  | 0, s => s
  | n + 1, s => closeN n (close s)

theorem close_closedFlag (s : ProtoState) : (close s).closedFlag = true := by
  unfold close fireConnectionLost
  split_ifs with h1 h2 h3 <;> first | exact h1 | rfl

theorem close_idem (s : ProtoState) : close (close s) = close s := by
  nth_rewrite 1 [close]
  simp [close_closedFlag s]

theorem closeN_eq_close (s : ProtoState) (n : Nat) (hn : 1 ≤ n) :
    closeN n s = close s := by
  obtain ⟨m, rfl⟩ : ∃ m, n = m + 1 := ⟨n - 1, by omega⟩
  clear hn
  show closeN m (close s) = close s
  induction m generalizing s with
  | zero => rfl
  | succ k ih =>
    show closeN k (close (close s)) = close s
    rw [close_idem s]
    exact ih s

/-- Claim C5: from an open state, `N ≥ 1` calls of `close()` are the same
as one, schedule at most one close task, and `connection_lost` fires
exactly once (counting the eventual transport-closure callback). -/
theorem close_idempotent (s : ProtoState) (n : Nat)
    (hopen : s.closedFlag = false) (h0 : s.closeTasks = 0)
    (hf : s.lostFired = false) (hc : s.lostFireCount = 0) (hn : 1 ≤ n) :
    closeN n s = close s
    ∧ (closeN n s).closeTasks ≤ 1
    ∧ (connection_lost (closeN n s)).lostFireCount = 1 := by
  refine ⟨closeN_eq_close s n hn, ?_, ?_⟩ <;>
    rw [closeN_eq_close s n hn] <;>
    cases ht : s.hasTransport <;>
    simp [close, connection_lost, fireConnectionLost, hopen, h0, hf, hc, ht]

/-- An open protocol with a transport. -/
def sOpen : ProtoState :=
  { hasTransport := true, closedFlag := false, closeTasks := 0,
    lostFired := false, lostFireCount := 0 }

/-- Witness for C5 at `sOpen` with three `close()` calls. -/
theorem close_idempotent_witness :
    closeN 3 sOpen = close sOpen
    ∧ (closeN 3 sOpen).closeTasks ≤ 1
    ∧ (connection_lost (closeN 3 sOpen)).lostFireCount = 1 :=
  close_idempotent sOpen 3 rfl rfl rfl rfl (by decide)

/-! ### Attribute-store embeddings (claims C6 and C10)

`PulsarProtocol.info` reads `self._session` and `TcpServer.create_protocol`
reads `self._sessions`; whether those attribute reads succeed depends on
which attribute names the constructors actually set, so these two are
embedded at the level of the Python instance attribute dictionary.
Attribute values that the claims never inspect are abstracted as tagged
objects.  `EventHandler` (`pulsar/async/events.py`, not among the sources)
and the mixins are modelled per spec §4.1/§4.2 as defining events, flow
limits and no attribute named `_session` or `_sessions`.
-/

inductive PyVal where
  | pyNone
  | pyInt (n : Nat)
  | pyStr (s : String)
  | pyObj (tag : String)
deriving DecidableEq

/-- Python truthiness for the modelled values. -/
def pyTruthy : PyVal → Bool
  | .pyNone => false
  | .pyInt n => n != 0
  | .pyStr s => s != ""
  | .pyObj _ => true

inductive PyErr where
  | attributeError
deriving DecidableEq

/-- An instance attribute dictionary (class attributes included, since
Python lookup falls back to them). -/
abbrev Attrs : Type := List (String × PyVal)

def getattr (a : Attrs) (k : String) : Except PyErr PyVal :=
  match a.find? (fun p => p.1 == k) with
  | some p => .ok p.2
  | none => .error .attributeError

def setattr (a : Attrs) (k : String) (v : PyVal) : Attrs :=
  match a.find? (fun p => p.1 == k) with
  | some _ => a.map (fun p => if p.1 == k then (k, v) else p)
  | none => a ++ [(k, v)]

/-- Attributes of a freshly constructed `PulsarProtocol`
(`pulsar/async/protocols.py:213-228`): the class attributes `_transport`,
`_address`, `_closed` and the nine assignments of `__init__`.  Note
`self.session = session`: nothing ever sets `_session`. -/
def pulsarProtocolInit (session : Nat) (producer : PyVal) : Attrs :=
  [("_transport", .pyNone), ("_address", .pyNone), ("_closed", .pyNone),
   ("logger", .pyObj "logger"), ("session", .pyInt session),
   ("_low_limit", .pyNone), ("_high_limit", .pyNone),
   ("_loop", .pyObj "loop"), ("_producer", producer)]

/-- Attributes of a freshly constructed `Connection`
(`pulsar/async/protocols.py:403-409` plus the `Protocol` class attributes
`_data_received_count` and `last_change`). -/
def connectionInit (session : Nat) (producer factory timeout : PyVal) : Attrs :=
  setattr (setattr (setattr
    (pulsarProtocolInit session producer ++
      [("_data_received_count", .pyInt 0), ("last_change", .pyNone)])
    "_processed" (.pyInt 0)) "_consumer_factory" factory) "timeout" timeout

/-- `PulsarProtocol.info` (`pulsar/async/protocols.py:336-340`): builds
`{'connection': {'session': self._session}}` and merges the producer info
when `self._producer` is truthy; the result dictionary is abstracted. -/
def pulsarProtocolInfo (a : Attrs) : Except PyErr PyVal :=
  match getattr a "_session" with
  | .error e => .error e
  | .ok _ =>
    match getattr a "_producer" with
    | .error e => .error e
    | .ok _ => .ok (.pyObj "info")

/-- Claim C10: `info()` on any freshly constructed `PulsarProtocol` (and
hence on any `Connection`) raises `AttributeError`, because it reads
`_session` while the constructor sets `session`. -/
theorem info_raises_attribute_error (session : Nat) (producer : PyVal) :
    pulsarProtocolInfo (pulsarProtocolInit session producer) =
      .error .attributeError
    ∧ ∀ factory timeout : PyVal,
        pulsarProtocolInfo (connectionInit session producer factory timeout) =
          .error .attributeError := by
  constructor
  · rfl
  · intro factory timeout
    rfl

/-- Attributes of a freshly constructed `TcpServer`
(`Producer.__init__`, `pulsar/async/protocols.py:502-510`, then
`TcpServer.__init__`, lines 558-565, plus the class attributes `_server`
and `_started`).  The request counter attribute is `sessions`. -/
def tcpServerInit (maxRequests : Option Nat) (keepAlive : Nat) : Attrs :=
  [("protocol_factory", .pyObj "protocol_factory"),
   ("_server", .pyNone), ("_started", .pyNone),
   ("logger", .pyObj "logger"), ("_loop", .pyObj "loop"),
   ("_name", .pyStr "TcpServer"), ("_requests_processed", .pyInt 0),
   ("sessions", .pyInt 0),
   ("_max_requests", match maxRequests with | some n => .pyInt n | none => .pyNone),
   ("_params", .pyObj "params"), ("_keep_alive", .pyInt keepAlive),
   ("_concurrent_connections", .pyObj "set")]

/-- `n1 >= n2` on the modelled values (only int comparisons occur). -/
def pyGe : PyVal → PyVal → Bool
  | .pyInt n1, .pyInt n2 => n2 ≤ n1
  | _, _ => false

/-- `TcpServer.close()` restricted to its attribute effect: the server
stops being referenced (`self._server = None`). -/
def tcpCloseAttrs (a : Attrs) : Attrs :=
  setattr a "_server" .pyNone

/-- `TcpServer.create_protocol` (`pulsar/async/protocols.py:663-675`),
including the inherited `Producer.create_protocol` (lines 518-529).
Event binding and the protocol object itself are abstracted; the
attribute reads and writes follow the source, in particular the guard

    if (self._server and self._max_requests and
            self._sessions >= self._max_requests):

reads `self._sessions`. -/
def tcp_create_protocol (a : Attrs) : Except PyErr (Attrs × PyVal) :=
  match getattr a "sessions" with
  | .error e => .error e
  | .ok v =>
    let n := match v with | .pyInt n => n | _ => 0
    let a1 := setattr a "sessions" (.pyInt (n + 1))
    let protocol := PyVal.pyObj "protocol"
    match getattr a1 "_server" with
    | .error e => .error e
    | .ok srv =>
      if pyTruthy srv then
        match getattr a1 "_max_requests" with
        | .error e => .error e
        | .ok mx =>
          if pyTruthy mx then
            match getattr a1 "_sessions" with
            | .error e => .error e
            | .ok sess =>
              if pyGe sess mx then .ok (tcpCloseAttrs a1, protocol)
              else .ok (a1, protocol)
          else .ok (a1, protocol)
      else .ok (a1, protocol)

/-- Claim C6 fails on the code: on a serving `TcpServer` with a
`max_requests` cap, every `create_protocol` call raises `AttributeError`
when it evaluates `self._sessions`, an attribute nothing ever sets (the
counter is `sessions`), instead of comparing the sessions counter. -/
theorem tcp_create_protocol_attribute_error (mx ka sess : Nat) (hmx : 0 < mx) :
    tcp_create_protocol
      (setattr (setattr (tcpServerInit (some mx) ka) "_server" (.pyObj "server"))
        "sessions" (.pyInt sess)) = .error .attributeError := by
  have hmx0 : mx ≠ 0 := Nat.pos_iff_ne_zero.mp hmx
  simp [tcp_create_protocol, tcpServerInit, setattr, getattr, pyTruthy, hmx0]

/-- Witness for C6: cap 1, keep-alive 0, one prior session. -/
theorem tcp_create_protocol_attribute_error_witness :
    tcp_create_protocol
      (setattr (setattr (tcpServerInit (some 1) 0) "_server" (.pyObj "server"))
        "sessions" (.pyInt 1)) = .error .attributeError :=
  tcp_create_protocol_attribute_error 1 0 1 (by decide)

/-! ### `WebSocketProtocol.write` (`pulsar/apps/ws/websocket.py:165-178`)

A non-`Frame` argument is encoded with `self.parser.encode`; the frame's
bytes `frame.msg` go to the transport; for a close frame `self.finish()`
runs.  `finish` completing the consumer's request is modelled from spec
§4.9 (the event machinery is not among the sources); here it is recorded
as a flag.
-/

structure WSFrame where
  msg : List Nat
  isClose : Bool
deriving DecidableEq

inductive WSWriteArg where
  | frame (f : WSFrame)
  | data (d : List Nat)

/-- The parser as `write` uses it: its `encode`. -/
structure WSEncoder where
  encode : List Nat → WSFrame

/-- `if not isinstance(frame, Frame): frame = self.parser.encode(frame)`. -/
def resolveFrame (p : WSEncoder) : WSWriteArg → WSFrame
  | .frame f => f
  | .data d => p.encode d

/-- `WebSocketProtocol.write`: the bytes written to the transport and
whether `finish` was triggered. -/
def ws_write (p : WSEncoder) (a : WSWriteArg) : List Nat × Bool :=
  let frame := resolveFrame p a
  (frame.msg, frame.isClose)

/-- Claim C9: `write` encodes a non-`Frame` argument with the parser's
encoder, writes the frame's bytes to the transport, and triggers a finish
whenever the written frame is a close frame. -/
theorem ws_write_encodes_and_finishes (p : WSEncoder) (a : WSWriteArg) :
    (∀ d, a = WSWriteArg.data d → (ws_write p a).1 = (p.encode d).msg)
    ∧ (ws_write p a).1 = (resolveFrame p a).msg
    ∧ ((resolveFrame p a).isClose = true → (ws_write p a).2 = true) := by
  refine ⟨?_, rfl, ?_⟩
  · intro d hd
    subst hd
    rfl
  · intro h
    simpa [ws_write] using h

/-- An encoder that produces close frames. -/
def pClose : WSEncoder :=
  { encode := fun d => { msg := 136 :: d, isClose := true } }

/-- Witness for C9: writing raw bytes through `pClose` encodes them and,
the frame being a close frame, triggers the finish. -/
theorem ws_write_encodes_and_finishes_witness :
    (ws_write pClose (WSWriteArg.data [1])).1 = (pClose.encode [1]).msg
    ∧ (ws_write pClose (WSWriteArg.data [1])).2 = true :=
  ⟨(ws_write_encodes_and_finishes pClose (WSWriteArg.data [1])).1 [1] rfl,
   (ws_write_encodes_and_finishes pClose (WSWriteArg.data [1])).2.2 rfl⟩

end Pulsar
